import Mathlib

/-!
Shallow embedding of the haccp-system core (src/app.py and
src/collect_once.py), together with spec-modelled definitions for the
sensor-job components whose source files are not part of src.

Numeric values are embedded as rationals; Python dicts over string keys are
embedded as association lists read with List.lookup (first match wins, which
agrees with dict semantics because the embedded literals have distinct keys).
-/

namespace HaccpSystem

/-- Reading classification, the closed variant set of the spec. -/
inductive Classification where
  | normal
  | abnormal
  deriving DecidableEq, Repr

/-- Transition-detector outcome for one sensor in one cycle. -/
inductive TransitionEvent where
  | raiseEv
  | clearEv
  | noEv
  deriving DecidableEq, Repr

/-- Modelled from the spec: the Transition Detector of the sensor job (the
collect-once sensor script is not under src). The decision given the new
classification and the previously persisted classification, absent history
treated as prior = normal: raise when prior is not abnormal and the new
classification is abnormal, clear when prior is abnormal and the new
classification is normal, otherwise no event. -/
def detectTransition (prior : Option Classification) (c : Classification) :
    TransitionEvent :=
  match prior.getD .normal, c with
  | .normal, .abnormal => .raiseEv
  | .abnormal, .normal => .clearEv
  | .normal, .normal => .noEv
  | .abnormal, .abnormal => .noEv

/-- Modelled from the spec: running the Transition Detector cycle by cycle
over a classification sequence for one sensor, each cycle persisting its
classification so that the next cycle reads it back as the prior. -/
def runDetector : Classification → List Classification → List TransitionEvent
  | _, [] => []
  | p, c :: cs => detectTransition (some p) c :: runDetector c cs

/-- Modelled from the spec: the last-classification history read with its
fail-open policy (the sensor script is not under src). The query result is
an Except; on failure the detector proceeds with prior = normal and the
degraded read is logged (second component true). -/
def priorFromHistory (q : Except String (Option Classification)) :
    Classification × Bool :=
  match q with
  | .ok h => (h.getD .normal, false)
  | .error _ => (.normal, true)

/-- Modelled from the spec: the transition detection step of one sensor fed by the
history query; it always yields an event (never aborts) plus the
degraded-mode log flag. -/
def detectWithHistory (q : Except String (Option Classification))
    (c : Classification) : TransitionEvent × Bool :=
  ((detectTransition (some (priorFromHistory q).1) c), (priorFromHistory q).2)

/-- From src/collect_once.py, run_analysis, lines 263 to 265: one raw
temperature value is divided by 10 when it is greater than 100, otherwise
kept. -/
def correctTemp (t : ℚ) : ℚ :=
  if t > 100 then t / 10 else t

/-- From src/collect_once.py, run_analysis, lines 261 to 266: the
correction loop builds corrected_temps by appending the corrected value of
each raw temperature in order. -/
def correctTemps : List ℚ → List ℚ
  | [] => []
  | t :: ts => (if t > 100 then t / 10 else t) :: correctTemps ts

/-- From src/collect_once.py, run_analysis, lines 261 to 272: for one time
span the corrected list is computed once and then used twice: it extends
temps_for_stats (first component) and it is the list the PU accumulation
loop iterates over (second component). -/
def processSpan (temps : List ℚ) : List ℚ × List ℚ :=
  (correctTemps temps, correctTemps temps)

/-- From src/app.py, tabs 5 room card loop, lines 747 to 748: a reading is
flagged when it is below the minimum or above the maximum of the band,
otherwise it is in the normal range. -/
def classifyReading (t lo hi : ℚ) : Classification :=
  if t < lo ∨ t > hi then .abnormal else .normal

/-- From src/app.py, lines 103 to 106: the per-room alarm band table with
its default entry. -/
def ALARM_CONFIG : List (String × (ℚ × ℚ)) :=
  [("쌀창고", (5, 25)), ("전처리실", (10, 30)), ("양조실", (20, 28)),
   ("제품포장실", (10, 30)), ("부자재창고", (0, 40)), ("default", (0, 35))]

/-- From src/app.py, line 739: the band of a room is read with
cfg.get(room, cfg[default]); the subscript read of the default entry fails
(Python KeyError, modelled as none) when the config has no default entry,
and otherwise the room entry is returned when present, the default band
when not. -/
def bandOf (cfg : List (String × (ℚ × ℚ))) (room : String) :
    Option (ℚ × ℚ) :=
  (cfg.lookup "default").map (fun dflt => (cfg.lookup room).getD dflt)

/-- From src/app.py, lines 97 to 101: the statically provisioned sensor to
room mapping used as a safety fallback. -/
def DEFAULT_SENSOR_CONFIG : List (String × String) :=
  [("1호기", "쌀창고"), ("2호기", "전처리실"), ("3호기", "전처리실"),
   ("4호기", "전처리실"), ("5호기", "양조실"), ("6호기", "양조실"),
   ("7호기", "양조실"), ("8호기", "제품포장실"), ("9호기", "제품포장실"),
   ("10호기", "부자재창고")]

/-- From src/app.py, lines 112 to 119: the sensor mapping fetch returns the
rows read from the database when the query succeeds and yields at least one
row, and falls back to DEFAULT_SENSOR_CONFIG when the query raises
(modelled as none) or returns no rows (res.data falsy). -/
def fetch_sensor_mapping_from_db (dbRows : Option (List (String × String))) :
    List (String × String) :=
  match dbRows with
  | some rows => if rows.isEmpty then DEFAULT_SENSOR_CONFIG else rows
  | none => DEFAULT_SENSOR_CONFIG

/-- From src/app.py, line 172: a sensor id is resolved to a room through the
current mapping, and a sensor with no mapping entry gets the constant
fill value 미분류. -/
def resolveRoom (mapping : List (String × String)) (sensorId : String) :
    String :=
  (mapping.lookup sensorId).getD "미분류"

/-- From src/collect_once.py, run_analysis process, lines 217 to 299: the
per-file loop runs one try block per file; a success appends its record to
save_data, a failure is caught by the per-file except, logged, and the loop
moves on to the next file. Records in the first component, error logs in
the second, both in file order. The per-file body (read, parse, classify,
persist) is abstracted as the step function, so a failure at any stage is the
error case. -/
def processFiles {α β : Type} (step : α → Except String β) :
    List α → List β × List String
  | [] => ([], [])
  | f :: fs =>
    match step f with
    | .ok r => ((processFiles step fs).1.cons r, (processFiles step fs).2)
    | .error e => ((processFiles step fs).1, (processFiles step fs).2.cons e)

/-- A concrete per-file step used to instantiate processFiles on explicit
inputs: one designated file fails, every other file yields its own name as
the record. -/
def stepDemo (f : String) : Except String String :=
  if f = "bad.xlsx" then .error "read failure" else .ok f

/-- Modelled from the spec: the exit behaviour of the run orchestrator (the
entry point of the collection job is not under src; the src/app.py secrets guard
at lines 82 to 88 shows only the abort-before-work half). With startup
configuration present a cycle runs all sensors through processFiles and the
process exits 0 even when per-sensor steps failed; with it missing the job
exits 1 before any sensor work. Result: exit code, records, logs. -/
def runJob {α β : Type} (secretsOk : Bool) (step : α → Except String β)
    (sensors : List α) : Nat × List β × List String :=
  if secretsOk then
    (0, (processFiles step sensors).1, (processFiles step sensors).2)
  else
    (1, [], [])

/-- A two-valued classification that is not abnormal is normal. -/
theorem Classification.ne_abnormal_iff (x : Classification) :
    x ≠ .abnormal ↔ x = .normal := by
  cases x <;> decide

/-- The correction loop computes exactly the elementwise correction. -/
theorem correctTemps_eq_map (temps : List ℚ) :
    correctTemps temps = temps.map correctTemp := by
  induction temps with
  | nil => rfl
  | cons t ts ih => simp [correctTemps, correctTemp, ih]

/-- C2: the transition detector returns raise iff the prior is not abnormal
and the new classification is abnormal, clear iff the prior is abnormal and
the new classification is normal, and no event otherwise; absent history is
read as prior = normal, so a first-ever abnormal reading raises. -/
theorem detectTransition_characterization :
    ∀ (prior : Option Classification) (c : Classification),
      (detectTransition prior c = .raiseEv ↔
        prior.getD .normal ≠ .abnormal ∧ c = .abnormal) ∧
      (detectTransition prior c = .clearEv ↔
        prior.getD .normal = .abnormal ∧ c = .normal) ∧
      (detectTransition prior c = .noEv ↔
        ¬(prior.getD .normal ≠ .abnormal ∧ c = .abnormal) ∧
        ¬(prior.getD .normal = .abnormal ∧ c = .normal)) ∧
      detectTransition none c = detectTransition (some .normal) c ∧
      detectTransition none .abnormal = .raiseEv := by
  intro prior c
  rcases prior with _ | p
  · cases c <;> simp [detectTransition]
  · cases p <;> cases c <;> simp [detectTransition]

/-- C3 counterexample: the implemented normalizer leaves a raw value of 41
unchanged because the threshold in the code is 100, so normalize(41) is 41,
not the 4.1 the claim pins. -/
theorem correctTemp_41_unchanged :
    correctTemp 41 = 41 ∧ correctTemps [41] = [41] ∧ (41 : ℚ) ≠ 41 / 10 := by
  refine ⟨?_, ?_, ?_⟩ <;> norm_num [correctTemp, correctTemps]

/-- C3 amended: the normalizer leaves 25, 40 and also 41 unchanged; the
plausibility cutoff fixed by the code is 100, left in place at exactly 100,
with the divide-by-10 correction applied exactly when the raw value exceeds
100 and exactly once per reading (one map over the raw list). -/
theorem normalizer_boundary_pinning :
    correctTemp 25 = 25 ∧ correctTemp 40 = 40 ∧ correctTemp 41 = 41 ∧
    correctTemp 100 = 100 ∧ correctTemp 101 = 101 / 10 ∧
    (∀ t : ℚ, 100 < t → correctTemp t = t / 10) ∧
    (∀ t : ℚ, t ≤ 100 → correctTemp t = t) ∧
    (∀ temps : List ℚ, correctTemps temps = temps.map correctTemp) := by
  refine ⟨?_, ?_, ?_, ?_, ?_, ?_, ?_, correctTemps_eq_map⟩
  · norm_num [correctTemp]
  · norm_num [correctTemp]
  · norm_num [correctTemp]
  · norm_num [correctTemp]
  · norm_num [correctTemp]
  · intro t ht; simp [correctTemp, ht]
  · intro t ht; simp [correctTemp, not_lt.mpr ht]

/-- C3 witness: 250 exceeds the cutoff and is corrected to 25. -/
theorem normalizer_boundary_pinning_witness :
    (100 : ℚ) < 250 ∧ correctTemp 250 = 25 := by
  refine ⟨by norm_num, ?_⟩
  rw [normalizer_boundary_pinning.2.2.2.2.2.1 250 (by norm_num)]
  norm_num

/-- C4: a reading is classified normal iff it lies in the inclusive band,
abnormal otherwise; the classification is a function of the temperature and
the band only. -/
theorem classifyReading_boundary_inclusive :
    ∀ t lo hi : ℚ,
      (classifyReading t lo hi = .normal ↔ lo ≤ t ∧ t ≤ hi) ∧
      (classifyReading t lo hi = .abnormal ↔ ¬(lo ≤ t ∧ t ≤ hi)) := by
  intro t lo hi
  by_cases h : t < lo ∨ t > hi
  · have h2 : ¬(lo ≤ t ∧ t ≤ hi) := by
      rcases h with h | h
      · exact fun hc => absurd hc.1 (not_le.mpr h)
      · exact fun hc => absurd hc.2 (not_le.mpr h)
    simp [classifyReading, h, h2]
  · have h2 : lo ≤ t ∧ t ≤ hi := by
      push_neg at h
      exact h
    simp [classifyReading, h, h2]

/-- C6: a failing history query yields prior = normal with the degraded-read
log flag set, detection still runs (an abnormal reading after a failed query
still raises, never suppressed), and a successful query yields the stored
classification with absent history read as normal and no degraded flag. -/
theorem history_query_fail_open :
    ∀ (e : String) (h : Option Classification) (c : Classification),
      priorFromHistory (.error e) = (.normal, true) ∧
      detectWithHistory (.error e) c = (detectTransition (some .normal) c, true) ∧
      detectWithHistory (.error e) .abnormal = (.raiseEv, true) ∧
      detectWithHistory (.ok h) c =
        (detectTransition (some (h.getD .normal)) c, false) := by
  intro e h c
  exact ⟨rfl, rfl, rfl, rfl⟩

/-- C8 counterexample: with a successfully fetched mapping that has no entry
for sensor 1호기, the resolver yields the constant 미분류, not the
provisioning default room 쌀창고 recorded for that sensor. -/
theorem resolveRoom_no_provisioning_fallback :
    resolveRoom (fetch_sensor_mapping_from_db (some [("11호기", "숙성실")]))
        "1호기" = "미분류" ∧
    DEFAULT_SENSOR_CONFIG.lookup "1호기" = some "쌀창고" ∧
    ("미분류" : String) ≠ "쌀창고" := by
  refine ⟨rfl, rfl, by decide⟩

/-- C8 amended: the resolver returns the room held in the mapping when an entry
exists and the constant 미분류 when none does, so it never fails; the
static provisioning mapping is used only wholesale, when the mapping fetch
raises or returns no rows. -/
theorem resolveRoom_fallback :
    (∀ (m : List (String × String)) (s r : String),
        (m.lookup s = some r → resolveRoom m s = r) ∧
        (m.lookup s = none → resolveRoom m s = "미분류")) ∧
    fetch_sensor_mapping_from_db none = DEFAULT_SENSOR_CONFIG ∧
    fetch_sensor_mapping_from_db (some []) = DEFAULT_SENSOR_CONFIG ∧
    (∀ rows : List (String × String), rows.isEmpty = false →
        fetch_sensor_mapping_from_db (some rows) = rows) := by
  refine ⟨?_, rfl, rfl, ?_⟩
  · intro m s r
    exact ⟨fun h => by simp [resolveRoom, h], fun h => by simp [resolveRoom, h]⟩
  · intro rows h
    simp [fetch_sensor_mapping_from_db, h]

/-- C8 witness: sensor 5호기 resolves to 양조실 under the provisioning map. -/
theorem resolveRoom_fallback_witness :
    DEFAULT_SENSOR_CONFIG.lookup "5호기" = some "양조실" ∧
    resolveRoom DEFAULT_SENSOR_CONFIG "5호기" = "양조실" := by
  refine ⟨rfl, ?_⟩
  exact (resolveRoom_fallback.1 DEFAULT_SENSOR_CONFIG "5호기" "양조실").1 rfl

/-- C9: with startup configuration missing the job exits 1 (non-zero)
having produced no records and no per-sensor logs, before any sensor work;
with configuration present the cycle runs and exits 0 for every per-sensor
step function, failing steps included. -/
theorem runJob_exit_codes :
    ∀ {α β : Type} (step : α → Except String β) (sensors : List α),
      (runJob false step sensors = (1, [], []) ∧
        (runJob false step sensors).1 ≠ 0) ∧
      (runJob true step sensors).1 = 0 := by
  intro α β step sensors
  refine ⟨⟨rfl, ?_⟩, rfl⟩
  intro h
  simp [runJob] at h

/-- C10: the implemented correction divides by 10 exactly when the raw
value exceeds 100, leaves 100 and below unchanged, and is applied once per
element; the statistics extension and the PU accumulation input of a span
are the same singly corrected list. -/
theorem temperature_correction :
    (∀ t : ℚ, 100 < t → correctTemp t = t / 10) ∧
    (∀ t : ℚ, t ≤ 100 → correctTemp t = t) ∧
    correctTemp 100 = 100 ∧
    (∀ temps : List ℚ,
      (processSpan temps).1 = temps.map correctTemp ∧
      (processSpan temps).2 = temps.map correctTemp ∧
      (processSpan temps).1 = (processSpan temps).2) := by
  refine ⟨?_, ?_, ?_, ?_⟩
  · intro t ht; simp [correctTemp, ht]
  · intro t ht; simp [correctTemp, not_lt.mpr ht]
  · norm_num [correctTemp]
  · intro temps
    exact ⟨by simp [processSpan, correctTemps_eq_map],
      by simp [processSpan, correctTemps_eq_map], rfl⟩

/-- C10 witness: 650 is corrected once, to 65 and not to 6.5. -/
theorem temperature_correction_witness :
    (100 : ℚ) < 650 ∧ correctTemp 650 = 65 := by
  refine ⟨by norm_num, ?_⟩
  rw [temperature_correction.1 650 (by norm_num)]
  norm_num

/-- C5: the per-file try/except isolates failures: the records produced are
exactly those of the files whose step succeeds, in order, the logs are
exactly the errors of the files whose step fails, in order, and every file
whose step succeeds contributes its record no matter which other files
fail. -/
theorem processFiles_fault_isolation :
    ∀ {α β : Type} (step : α → Except String β) (files : List α),
      (processFiles step files).1 =
        files.filterMap (fun f => (step f).toOption) ∧
      (processFiles step files).2 =
        files.filterMap (fun f =>
          match step f with
          | .ok _ => none
          | .error e => some e) ∧
      (∀ f ∈ files, ∀ r, step f = .ok r →
        r ∈ (processFiles step files).1) := by
  intro α β step files
  have h1 : (processFiles step files).1 =
      files.filterMap (fun f => (step f).toOption) := by
    induction files with
    | nil => rfl
    | cons f fs ih =>
      cases hstep : step f with
      | ok r => simp [processFiles, hstep, ih, Except.toOption]
      | error e => simp [processFiles, hstep, ih, Except.toOption]
  have h2 : (processFiles step files).2 =
      files.filterMap (fun f =>
        match step f with
        | .ok _ => none
        | .error e => some e) := by
    clear h1
    induction files with
    | nil => rfl
    | cons f fs ih =>
      cases hstep : step f with
      | ok r => simp [processFiles, hstep, ih]
      | error e => simp [processFiles, hstep, ih]
  refine ⟨h1, h2, ?_⟩
  intro f hf r hr
  rw [h1]
  exact List.mem_filterMap.mpr ⟨f, hf, by simp [hr, Except.toOption]⟩

/-- C5 witness: with the middle file failing, the other two files still
produce their records and the failure is logged alone. -/
theorem processFiles_fault_isolation_witness :
    processFiles stepDemo ["a.xlsx", "bad.xlsx", "b.xlsx"] =
      (["a.xlsx", "b.xlsx"], ["read failure"]) ∧
    "b.xlsx" ∈ (processFiles stepDemo ["a.xlsx", "bad.xlsx", "b.xlsx"]).1 := by
  refine ⟨rfl, ?_⟩
  exact (processFiles_fault_isolation stepDemo ["a.xlsx", "bad.xlsx", "b.xlsx"]).2.2
    "b.xlsx" (by simp) "b.xlsx" rfl

/-- C7: for any config holding a default entry, the band of a room is its
explicit entry when one exists and the default band when none does; on the
actual ALARM_CONFIG the lookup never fails, the explicit 쌀창고 band is
returned, and an unlisted room gets the default band. -/
theorem bandOf_default_fallback :
    (∀ (cfg : List (String × (ℚ × ℚ))) (room : String) (d b : ℚ × ℚ),
        cfg.lookup "default" = some d →
          (cfg.lookup room = some b → bandOf cfg room = some b) ∧
          (cfg.lookup room = none → bandOf cfg room = some d)) ∧
    (∀ room : String, (bandOf ALARM_CONFIG room).isSome = true) ∧
    bandOf ALARM_CONFIG "쌀창고" = some (5, 25) ∧
    bandOf ALARM_CONFIG "복도" = some (0, 35) := by
  refine ⟨?_, ?_, rfl, rfl⟩
  · intro cfg room d b hd
    constructor
    · intro hr
      simp [bandOf, hd, hr]
    · intro hr
      simp [bandOf, hd, hr]
  · intro room
    have hd : ALARM_CONFIG.lookup "default" = some ((0 : ℚ), (35 : ℚ)) := rfl
    simp [bandOf, hd]

/-- C7 witness: 양조실 has an explicit entry and bandOf returns it. -/
theorem bandOf_default_fallback_witness :
    ALARM_CONFIG.lookup "default" = some ((0 : ℚ), (35 : ℚ)) ∧
    ALARM_CONFIG.lookup "양조실" = some ((20 : ℚ), (28 : ℚ)) ∧
    bandOf ALARM_CONFIG "양조실" = some (20, 28) := by
  refine ⟨rfl, rfl, ?_⟩
  exact (bandOf_default_fallback.1 ALARM_CONFIG "양조실" (0, 35) (20, 28) rfl).1 rfl

/-- At position i of a detector run started with prior p, a raise occurs
exactly when the classification there is abnormal and the one before it
(the starting prior for position zero) is not abnormal. -/
theorem runDetector_raise_iff (l : List Classification) :
    ∀ (p : Classification) (i : Nat),
      (runDetector p l).getD i .noEv = .raiseEv ↔
        i < l.length ∧ l.getD i .normal = .abnormal ∧
          (match i with
           | 0 => p
           | k + 1 => l.getD k .normal) ≠ .abnormal := by
  induction l with
  | nil =>
    intro p i
    simp [runDetector]
  | cons c cs ih =>
    intro p i
    cases i with
    | zero =>
      simp only [runDetector, List.getD_cons_zero, List.length_cons]
      cases p <;> cases c <;> simp [detectTransition]
    | succ k =>
      have hstep : (runDetector p (c :: cs)).getD (k + 1) .noEv =
          (runDetector c cs).getD k .noEv := rfl
      rw [hstep, ih c k]
      cases k with
      | zero => simp
      | succ j => simp [Nat.succ_lt_succ_iff]

/-- At position i of a detector run started with prior p, a clear occurs
exactly when the classification there is normal and the one before it (the
starting prior for position zero) is abnormal. -/
theorem runDetector_clear_iff (l : List Classification) :
    ∀ (p : Classification) (i : Nat),
      (runDetector p l).getD i .noEv = .clearEv ↔
        i < l.length ∧ l.getD i .abnormal = .normal ∧
          (match i with
           | 0 => p
           | k + 1 => l.getD k .normal) = .abnormal := by
  induction l with
  | nil =>
    intro p i
    simp [runDetector]
  | cons c cs ih =>
    intro p i
    cases i with
    | zero =>
      simp only [runDetector, List.getD_cons_zero, List.length_cons]
      cases p <;> cases c <;> simp [detectTransition]
    | succ k =>
      have hstep : (runDetector p (c :: cs)).getD (k + 1) .noEv =
          (runDetector c cs).getD k .noEv := rfl
      rw [hstep, ih c k]
      cases k with
      | zero => simp
      | succ j => simp [Nat.succ_lt_succ_iff]

/-- C1: running the detector from prior = normal, a raise occurs exactly at
the first position of each maximal abnormal run (an abnormal preceded by
the start or by a normal) and a clear exactly at each recovery (a normal
preceded by an abnormal), so each excursion raises once and each recovery
clears once; on the pinned sequence the events are none, raise, none, none,
clear. -/
theorem transition_dedup :
    (∀ (seq : List Classification) (i : Nat),
      ((runDetector .normal seq).getD i .noEv = .raiseEv ↔
        i < seq.length ∧ seq.getD i .normal = .abnormal ∧
          (i = 0 ∨ seq.getD (i - 1) .normal = .normal)) ∧
      ((runDetector .normal seq).getD i .noEv = .clearEv ↔
        i < seq.length ∧ seq.getD i .abnormal = .normal ∧
          0 < i ∧ seq.getD (i - 1) .normal = .abnormal)) ∧
    runDetector .normal [.normal, .abnormal, .abnormal, .abnormal, .normal] =
      [.noEv, .raiseEv, .noEv, .noEv, .clearEv] := by
  refine ⟨?_, rfl⟩
  intro seq i
  constructor
  · rw [runDetector_raise_iff]
    cases i with
    | zero => simp
    | succ k => simp [Classification.ne_abnormal_iff]
  · rw [runDetector_clear_iff]
    cases i with
    | zero => simp
    | succ k => simp

end HaccpSystem
